import Mathlib

/-!
Verification of the connection-orchestration layer of a RESP key-value
server (`internal/server/resp/server.go`): unique worker-ID generation,
the worker registries, the accept loop, socket binding, and the
run/shutdown protocol. Pure parts are translated into executable Lean
functions; the concurrent run protocol is given an explicit
interleaving semantics (a step relation driven by a schedule).
-/

/-! ### Decimal rendering (the fmt %d verb) -/

/-- The character emitted for one decimal digit by fmt's %d verb. -/
def digitChar : Nat → Char
  | 0 => '0'
  | 1 => '1'
  | 2 => '2'
  | 3 => '3'
  | 4 => '4'
  | 5 => '5'
  | 6 => '6'
  | 7 => '7'
  | 8 => '8'
  | 9 => '9'
  | _ => '?'

/-- Decimal rendering of a natural number, as produced by fmt's %d verb on
a non-negative value (most significant digit first; 0 renders as "0"). -/
def natDigits (n : Nat) : List Char :=
  if n = 0 then ['0'] else ((Nat.digits 10 n).map digitChar).reverse

/-- Decimal rendering of an integer, as produced by fmt's %d verb: a
leading minus sign for negative values. -/
def intDigits (t : Int) : List Char :=
  if t < 0 then '-' :: natDigits t.natAbs else natDigits t.toNat

/-- The numeric value of a digit character (inverse of digitChar on
digits). -/
def charVal (c : Char) : Nat :=
  c.toNat - 48

/-- Parse a most-significant-first digit string back to the number it
renders; used to show the rendering is injective. -/
def parseNat (l : List Char) : Nat :=
  l.foldl (fun acc c => 10 * acc + charVal c) 0

/-! ### ID generator (server.go lines 32-36, 273-285) -/

/-- 2^64, the modulus of Go's uint64 arithmetic: atomic.AddUint64 wraps
around at this bound. -/
def UINT64_LIMIT : Nat := 18446744073709551616

/-- fmt.Sprintf of the "%s-%d-%d" verb string applied to the category
tag, the relative timestamp and the counter value (server.go line 284).
Built as one character list; string concatenation concatenates the
underlying character data. -/
def sprintfID (category : String) (timestamp : Int) (count : Nat) : String :=
  String.mk (category.data ++ ('-' :: intDigits timestamp) ++ ('-' :: natDigits count))

/-- GenerateUniqueID (server.go lines 281-285): atomically increments the
category's package-level uint64 counter (wrapping at 2^64) and formats
the identity from the category tag, the timestamp observed by this call
(time.Now().UnixMilli() - startTime, supplied here by the environment)
and the incremented count. Returns the identity together with the new
counter value (the updated shared state). -/
def GenerateUniqueID (category : String) (timestamp : Int) (counter : Nat) : String × Nat :=
  let count := (counter + 1) % UINT64_LIMIT
  (sprintfID category timestamp count, count)

/-- A run of GenerateUniqueID calls for one category: one call per entry
of the timestamp list (the timestamp each call observes), threading the
category's counter through the calls. The package-level counter starts at
0, the zero value of a Go uint64. -/
def GenerateUniqueIDs (category : String) (counter : Nat) : List Int → List String
  | [] => []
  | t :: ts =>
    (GenerateUniqueID category t counter).1 ::
      GenerateUniqueIDs category (GenerateUniqueID category t counter).2 ts

/-! ### Worker registries -/

/-- Modelled from the spec: the register operation of a Worker Registry
(spec section 4.2; the bodies of `iothread.Manager.RegisterIOThread` and
`commandhandler.Registry.RegisterCommandHandler` are outside the provided
sources). Registering an identity already present fails with DuplicateID
(returning none) and leaves the registry unchanged; otherwise the entry
is inserted. -/
def registerWorker {α : Type} [DecidableEq α] (reg : List α) (id : α) : Option (List α) :=
  if id ∈ reg then none else some (id :: reg)

/-- Modelled from the spec: the unregister operation of a Worker Registry
(spec section 4.2): removes the identity if present; unregistering an
absent identity is reported as NotFound but non-fatal, leaving the
registry unchanged. -/
def unregisterWorker {α : Type} [DecidableEq α] (reg : List α) (id : α) : List α :=
  reg.erase id

/-! ### One iteration of the accept loop (server.go lines 178-239) -/

/-- Result of the syscall.Accept call at line 186, as classified by the
loop at lines 187-193. -/
inductive AcceptRes
  | ok
  | eagain
  | ewouldblock
  | otherErr
  deriving DecidableEq

/-- The environment one iteration of the accept loop runs against:
whether ctx.Done() is ready (line 181), what syscall.Accept returns
(line 186), and whether netconn.NewIOHandler succeeds for the accepted
descriptor (line 196; its body is outside the provided sources, the
loop only branches on its error result). -/
structure IterEnv where
  ctxDone : Bool
  acceptRes : AcceptRes
  ioHandlerOk : Bool
  deriving DecidableEq

/-- Which return or continue statement one iteration of the accept loop
reaches, or the start of both worker goroutines (lines 234-236). -/
inductive IterOut
  | returnCtxErr
  | contWouldBlock
  | returnAcceptErr
  | returnIOHandlerErr
  | contRegIOFailed
  | contRegCmdFailed
  | startedWorkers
  deriving DecidableEq

/-- Full effect of one iteration of the accept loop on the observable
state. clientSocketClosed records whether the iteration executed a close
of the accepted client descriptor: the source of
AcceptConnectionRequests contains no syscall.Close(clientFD) call on any
path, so no branch sets it. -/
structure IterResult where
  out : IterOut
  ioReg : List String
  cmdReg : List String
  clientSocketObtained : Bool
  clientSocketClosed : Bool
  deriving DecidableEq

/-- One iteration of Server.AcceptConnectionRequests (lines 179-238),
given the current contents of the two registries and the two freshly
generated worker identities. Branch for branch from the source:
ctx.Done returns ctx.Err (line 184); EAGAIN and EWOULDBLOCK continue
(line 189); any other accept error returns (line 192); a NewIOHandler
error returns (line 199) with the accepted descriptor left open; a
failed io-thread registration continues (line 223) with the descriptor
left open; a failed command-handler registration continues (line 230)
with the descriptor left open and the io-thread registration kept; when
both registrations succeed both workers are started (lines 234-236). -/
def AcceptConnectionsIteration (env : IterEnv) (ioReg cmdReg : List String)
    (ioThreadID cmdHandlerID : String) : IterResult :=
  if env.ctxDone then
    ⟨.returnCtxErr, ioReg, cmdReg, false, false⟩
  else
    match env.acceptRes with
    | .eagain => ⟨.contWouldBlock, ioReg, cmdReg, false, false⟩
    | .ewouldblock => ⟨.contWouldBlock, ioReg, cmdReg, false, false⟩
    | .otherErr => ⟨.returnAcceptErr, ioReg, cmdReg, false, false⟩
    | .ok =>
      if env.ioHandlerOk = false then
        ⟨.returnIOHandlerErr, ioReg, cmdReg, true, false⟩
      else
        match registerWorker ioReg ioThreadID with
        | none => ⟨.contRegIOFailed, ioReg, cmdReg, true, false⟩
        | some ioReg' =>
          match registerWorker cmdReg cmdHandlerID with
          | none => ⟨.contRegCmdFailed, ioReg', cmdReg, true, false⟩
          | some cmdReg' => ⟨.startedWorkers, ioReg', cmdReg', true, false⟩

/-- Whether the accept loop keeps looping after an iteration with this
outcome (the continue statements and the started-workers path) or has
returned to its caller (the return statements). -/
def loopContinues : IterOut → Bool
  | .returnCtxErr => false
  | .returnAcceptErr => false
  | .returnIOHandlerErr => false
  | _ => true

/-! ### Server.BindAndListen (server.go lines 122-168) -/

/-- Outcomes of the syscalls along the bind/listen path, plus whether
net.ParseIP accepts the configured host (line 149). -/
structure BindEnv where
  socketOk : Bool
  reuseAddrOk : Bool
  nonblockOk : Bool
  hostParses : Bool
  bindOk : Bool
  listenOk : Bool
  deriving DecidableEq

/-- The error BindAndListen returns on each failure path. -/
inductive BindErr
  | socketFailed
  | reuseAddrFailed
  | nonblockFailed
  | invalidIPAddress
  | bindFailed
  | listenFailed
  deriving DecidableEq

/-- Observable result of BindAndListen: the returned error, whether the
socket descriptor was created, whether the deferred syscall.Close at
line 132 ran on it, and whether s.serverFD was assigned (line 166). -/
structure BindOutput where
  err : Option BindErr
  fdCreated : Bool
  fdClosed : Bool
  serverFDSet : Bool
  deriving DecidableEq

/-- The body of BindAndListen after socket creation (lines 141-167):
returns the function's return value paired with the value of the local
variable err at return time, the variable the deferred closure at lines
130-139 tests. Every failure path assigns err before returning, except
the invalid-address path (lines 149-152), which returns
ErrInvalidIPAddress directly and leaves err nil. -/
def bindBodyAfterSocket (env : BindEnv) : Option BindErr × Option BindErr :=
  if env.reuseAddrOk = false then (some .reuseAddrFailed, some .reuseAddrFailed)
  else if env.nonblockOk = false then (some .nonblockFailed, some .nonblockFailed)
  else if env.hostParses = false then (some .invalidIPAddress, none)
  else if env.bindOk = false then (some .bindFailed, some .bindFailed)
  else if env.listenOk = false then (some .listenFailed, some .listenFailed)
  else (none, none)

/-- Server.BindAndListen (lines 122-168). If socket creation itself
fails, no descriptor exists and the error is returned at once (lines
123-126). Otherwise the deferred closure closes the created descriptor
exactly when the local err variable is non-nil at return (lines
130-139), and s.serverFD is assigned only on the success path (line
166). -/
def BindAndListen (env : BindEnv) : BindOutput :=
  if env.socketOk = false then
    ⟨some .socketFailed, false, false, false⟩
  else
    let r := bindBodyAfterSocket env
    ⟨r.1, true, r.2.isSome, r.1.isNone⟩

/-! ### The Server value and Shutdown (server.go lines 46-59, 287-289) -/

/-- The fields of the Server struct that its methods read or write,
together with the contents of the two registries it holds references
to. -/
structure ServerState where
  Host : String
  Port : Int
  serverFD : Int
  connBacklogSize : Int
  ioThreadRegistry : List String
  cmdHandlerRegistry : List String
  watchChanPresent : Bool
  deriving DecidableEq

/-- Server.Shutdown (lines 287-289): the method body is empty (the
source comment reads "Not implemented"), so the server and registry
state is returned unchanged. -/
def Shutdown (s : ServerState) : ServerState :=
  s

/-! ### Whole-run interleaving model
(Server.Run, lines 78-120; the accept-goroutine wrapper, lines 99-105;
startIOThread and startCommandHandler, lines 241-271; watch-manager
launch, lines 91-97)

One state machine per Run invocation, after a successful BindAndListen.
A schedule (list of steps) resolves the nondeterminism of goroutine
interleaving and of the select at lines 107-112; a step whose guard does
not hold leaves the state unchanged, so every schedule denotes a
possible (partial) execution. -/

/-- Errors flowing through the run protocol. ctxCanceled is
context.Canceled as returned by ctx.Err(); acceptFatal stands for any
non-would-block error the accept loop returns other than ctx.Err (a
fatal accept syscall error, line 192, or a NewIOHandler failure, line
199); wrapAccept is the wrapping applied at line 103 before the send on
errChan. -/
inductive GoErr
  | ctxCanceled
  | acceptFatal
  | wrapAccept (e : GoErr)
  deriving DecidableEq

/-- The two kinds of per-connection worker goroutines. -/
inductive WKind
  | ioThread
  | cmdHandler
  deriving DecidableEq

/-- Lifecycle of the watch-manager goroutine: notStarted when the nil
check at line 91 skipped the launch, running after the go statement at
line 93, exited after watchManager.Run returned and the deferred
wg.Done at line 94 ran. -/
inductive WatchPh
  | notStarted
  | running
  | exited
  deriving DecidableEq

/-- Which arm of the select at lines 107-112 fired. -/
inductive SelBranch
  | ctxBranch
  | errBranch
  deriving DecidableEq

/-- Progress of the main goroutine through Run: blocked in the select;
past the select holding the error value the return will carry; returned
from Run with that value. -/
inductive MainPh
  | selecting
  | selected (b : SelBranch) (e : Option GoErr)
  | returned (b : SelBranch) (e : Option GoErr)
  deriving DecidableEq

/-- State of one Run invocation. spawned holds worker goroutines that
exist but have not yet executed the wg.Done call placed at the top of
startIOThread / startCommandHandler (lines 242, 258); active holds
workers past that call whose thread.Start / cmdHandler.Start has not yet
returned, and which are therefore still registered; a worker leaves
active by running its deferred unregister (lines 243-248, 259-264).
released counts executions of the deferred ReleasePort (line 85).
Worker identities are numbered by accepted connection. -/
structure SysState where
  cancelled : Bool
  wg : Nat
  errChan : Option GoErr
  ioReg : List Nat
  cmdReg : List Nat
  nextConn : Nat
  spawned : List (Nat × WKind)
  active : List (Nat × WKind)
  acceptLooping : Bool
  watchPh : WatchPh
  mainPh : MainPh
  released : Nat
  deriving DecidableEq

/-- Scheduler steps. cancel: the governing context is cancelled.
acceptConn: one full successful iteration of the accept loop (accept,
NewIOHandler, both registrations attempted as in lines 219-231, and on
double success wg.Add(2) plus both go statements, lines 234-236).
acceptFatalErr: the accept loop returns a fatal error, whose wrap is
sent on errChan by the wrapper (lines 102-104) before its deferred
wg.Done (line 101). acceptSeesCancel: the loop takes the ctx.Done arm
(lines 181-184) and returns ctx.Err, which the wrapper likewise wraps,
sends and wg.Dones. workerDone: a worker goroutine executes the wg.Done
at its top. workerExit: a worker's Start returns (on cancellation or on
a per-connection error) and its deferred unregister runs. watchExit:
watchManager.Run returns after cancellation (its body is outside the
provided sources; the spec has it run until shutdown) and the deferred
wg.Done at line 94 runs. mainSelectCtx / mainSelectErr: the select at
lines 107-112 fires on the ready arm. mainFinish: the no-op s.Shutdown
(line 114), wg.Wait succeeding (line 116, guard wg = 0), the return at
line 119, and the deferred ReleasePort (line 85). -/
inductive Step
  | cancel
  | acceptConn
  | acceptFatalErr
  | acceptSeesCancel
  | workerDone (n : Nat) (k : WKind)
  | workerExit (n : Nat) (k : WKind)
  | watchExit
  | mainSelectCtx
  | mainSelectErr
  | mainFinish
  deriving DecidableEq

/-- The step function of the run protocol: a step whose guard does not
hold is a stutter. -/
def step (s : SysState) : Step → SysState
  | .cancel => { s with cancelled := true }
  | .acceptConn =>
    if s.acceptLooping then
      match registerWorker s.ioReg s.nextConn with
      | none => { s with nextConn := s.nextConn + 1 }
      | some ioReg' =>
        match registerWorker s.cmdReg s.nextConn with
        | none => { s with nextConn := s.nextConn + 1, ioReg := ioReg' }
        | some cmdReg' =>
          { s with
              nextConn := s.nextConn + 1
              ioReg := ioReg'
              cmdReg := cmdReg'
              wg := s.wg + 2
              spawned :=
                (s.nextConn, .ioThread) :: (s.nextConn, .cmdHandler) :: s.spawned }
    else s
  | .acceptFatalErr =>
    if s.acceptLooping then
      { s with
          acceptLooping := false
          errChan := some (.wrapAccept .acceptFatal)
          wg := s.wg - 1 }
    else s
  | .acceptSeesCancel =>
    if s.acceptLooping ∧ s.cancelled = true then
      { s with
          acceptLooping := false
          errChan := some (.wrapAccept .ctxCanceled)
          wg := s.wg - 1 }
    else s
  | .workerDone n k =>
    if (n, k) ∈ s.spawned then
      { s with
          spawned := s.spawned.erase (n, k)
          active := (n, k) :: s.active
          wg := s.wg - 1 }
    else s
  | .workerExit n k =>
    if (n, k) ∈ s.active then
      match k with
      | .ioThread =>
        { s with active := s.active.erase (n, k), ioReg := unregisterWorker s.ioReg n }
      | .cmdHandler =>
        { s with active := s.active.erase (n, k), cmdReg := unregisterWorker s.cmdReg n }
    else s
  | .watchExit =>
    if s.watchPh = .running ∧ s.cancelled = true then
      { s with watchPh := .exited, wg := s.wg - 1 }
    else s
  | .mainSelectCtx =>
    if s.mainPh = .selecting ∧ s.cancelled = true then
      { s with mainPh := .selected .ctxBranch none }
    else s
  | .mainSelectErr =>
    match s.mainPh, s.errChan with
    | .selecting, some v => { s with mainPh := .selected .errBranch (some v), errChan := none }
    | _, _ => s
  | .mainFinish =>
    match s.mainPh with
    | .selected b e =>
      if s.wg = 0 then { s with mainPh := .returned b e, released := s.released + 1 }
      else s
    | _ => s

/-- Run a schedule from a state. -/
def exec (s : SysState) : List Step → SysState
  | [] => s
  | a :: rest => exec (step s a) rest

/-- The state of Run right after a successful BindAndListen: the wg
holds one count for the accept goroutine (line 99) plus, when
cmdWatchSubscriptionChan is non-nil, one for the watch-manager goroutine
(lines 91-97, guarded by the nil check at line 91); no connection has
been accepted, the registries are empty, the main goroutine is entering
the select. -/
def initState (watchPresent : Bool) : SysState :=
  { cancelled := false
    wg := (if watchPresent then 1 else 0) + 1
    errChan := none
    ioReg := []
    cmdReg := []
    nextConn := 0
    spawned := []
    active := []
    acceptLooping := true
    watchPh := if watchPresent then .running else .notStarted
    mainPh := .selecting
    released := 0 }

/-- Whether Run has returned. -/
def isReturned : MainPh → Bool
  | .returned _ _ => true
  | _ => false

/-- The number of wg counts the live goroutines still owe: one while the
accept goroutine runs, one while the watch goroutine runs, one per
worker goroutine that has not yet executed its leading wg.Done. -/
def wgSpec (s : SysState) : Nat :=
  (if s.acceptLooping then 1 else 0) + (if s.watchPh = .running then 1 else 0)
    + s.spawned.length


/-! ### Lemmas on decimal rendering and identity formatting -/

theorem digitChar_ne_dash (d : Nat) (hd : d < 10) : digitChar d ≠ '-' := by
  interval_cases d <;> decide

theorem charVal_digitChar (d : Nat) (hd : d < 10) : charVal (digitChar d) = d := by
  interval_cases d <;> decide

theorem dash_not_mem_natDigits (n : Nat) : '-' ∉ natDigits n := by
  by_cases h0 : n = 0
  · simp [natDigits, h0]
  · simp only [natDigits, h0, if_false, ite_false, List.mem_reverse, List.mem_map]
    intro hmem
    obtain ⟨d, hd, hEq⟩ := hmem
    exact digitChar_ne_dash d (Nat.digits_lt_base (by norm_num) hd) hEq

theorem parseNat_rev_map (L : List Nat) (hL : ∀ d ∈ L, d < 10) :
    parseNat ((L.map digitChar).reverse) = Nat.ofDigits 10 L := by
  induction L with
  | nil => simp [parseNat, Nat.ofDigits]
  | cons d L ih =>
    have hrev : ((d :: L).map digitChar).reverse
        = (L.map digitChar).reverse ++ [digitChar d] := by
      simp
    rw [hrev]
    unfold parseNat
    rw [List.foldl_append]
    have ihv := ih (fun x hx => hL x (List.mem_cons_of_mem d hx))
    unfold parseNat at ihv
    rw [ihv, Nat.ofDigits_cons]
    simp only [List.foldl_cons, List.foldl_nil]
    rw [charVal_digitChar d (hL d (List.mem_cons_self d L))]
    omega

theorem parseNat_natDigits (n : Nat) : parseNat (natDigits n) = n := by
  by_cases h0 : n = 0
  · simp [natDigits, h0, parseNat, charVal]
  · rw [natDigits, if_neg h0,
      parseNat_rev_map (Nat.digits 10 n) (fun d hd => Nat.digits_lt_base (by norm_num) hd),
      Nat.ofDigits_digits]

theorem natDigits_inj {m n : Nat} (h : natDigits m = natDigits n) : m = n := by
  have := congrArg parseNat h
  rwa [parseNat_natDigits, parseNat_natDigits] at this

theorem first_dash_split (x : List Char) : ∀ (y a b : List Char), '-' ∉ x → '-' ∉ y →
    x ++ '-' :: a = y ++ '-' :: b → x = y ∧ a = b := by
  induction x with
  | nil =>
    intro y a b _ hy h
    cases y with
    | nil => simpa using h
    | cons d ys =>
      simp only [List.nil_append, List.cons_append, List.cons.injEq] at h
      exact absurd (h.1 ▸ List.mem_cons_self d ys) (h.1 ▸ hy)
  | cons c xs ih =>
    intro y a b hx hy h
    cases y with
    | nil =>
      simp only [List.cons_append, List.nil_append, List.cons.injEq] at h
      exact absurd (h.1 ▸ List.mem_cons_self c xs) (h.1 ▸ hx)
    | cons d ys =>
      simp only [List.cons_append, List.cons.injEq] at h
      obtain ⟨h1, h2⟩ := h
      have hr := ih ys a b (fun hm => hx (List.mem_cons_of_mem c hm))
        (fun hm => hy (List.mem_cons_of_mem d hm)) h2
      exact ⟨by rw [h1, hr.1], hr.2⟩

theorem last_dash_split (x y a b : List Char) (ha : '-' ∉ a) (hb : '-' ∉ b)
    (h : x ++ '-' :: a = y ++ '-' :: b) : x = y ∧ a = b := by
  have h' : a.reverse ++ '-' :: x.reverse = b.reverse ++ '-' :: y.reverse := by
    have hc := congrArg List.reverse h
    simpa [List.reverse_append] using hc
  have hs := first_dash_split a.reverse b.reverse x.reverse y.reverse
    (by simpa using ha) (by simpa using hb) h'
  exact ⟨List.reverse_inj.mp hs.2, List.reverse_inj.mp hs.1⟩

theorem sprintfID_count_inj (cat : String) (t1 t2 : Int) (c1 c2 : Nat)
    (h : sprintfID cat t1 c1 = sprintfID cat t2 c2) : c1 = c2 := by
  unfold sprintfID at h
  have hdata : cat.data ++ ('-' :: intDigits t1) ++ ('-' :: natDigits c1)
      = cat.data ++ ('-' :: intDigits t2) ++ ('-' :: natDigits c2) := congrArg String.data h
  rw [List.append_assoc, List.append_assoc] at hdata
  have h2 := List.append_cancel_left hdata
  simp only [List.cons_append, List.cons.injEq, true_and] at h2
  have h3 := last_dash_split _ _ _ _ (dash_not_mem_natDigits c1) (dash_not_mem_natDigits c2) h2
  exact natDigits_inj h3.2

theorem GenerateUniqueIDs_get (cat : String) :
    ∀ (ts : List Int) (c i : Nat) (h : i < ts.length),
      (GenerateUniqueIDs cat c ts).get? i
        = some (sprintfID cat ts[i] ((c + i + 1) % UINT64_LIMIT)) := by
  intro ts
  induction ts with
  | nil => intro c i h; simp at h
  | cons t ts ih =>
    intro c i h
    cases i with
    | zero =>
      simp [GenerateUniqueIDs, GenerateUniqueID]
    | succ i =>
      have h' : i < ts.length := by simpa using h
      have hstep : (GenerateUniqueIDs cat c (t :: ts)).get? (i + 1)
          = (GenerateUniqueIDs cat ((c + 1) % UINT64_LIMIT) ts).get? i := by
        simp [GenerateUniqueIDs, GenerateUniqueID]
      rw [hstep, ih ((c + 1) % UINT64_LIMIT) i h']
      have hmod : ((c + 1) % UINT64_LIMIT + i + 1) % UINT64_LIMIT
          = (c + (i + 1) + 1) % UINT64_LIMIT := by
        rw [Nat.add_assoc, Nat.mod_add_mod]
        congr 1
        omega
      rw [hmod]
      congr 1

/-- Claim C6 (corrected), counterexample: the sequence component is a
wrapping uint64, so the claim as stated fails: in a run of 2^64 + 1
calls for the same category in which every call observes the same
timestamp, the first call and the 2^64 + 1st call (positions 0 and 2^64)
are two distinct calls that return the identical identity "I-0-1" —
the same sequence value 1 is issued twice. -/
theorem C6_counterexample :
    (GenerateUniqueIDs "I" 0 (List.replicate (UINT64_LIMIT + 1) 0)).get? 0
      = some (sprintfID "I" 0 1) ∧
    (GenerateUniqueIDs "I" 0 (List.replicate (UINT64_LIMIT + 1) 0)).get? UINT64_LIMIT
      = some (sprintfID "I" 0 1) ∧
    (0 : Nat) ≠ UINT64_LIMIT := by
  have h0 : (0 : Nat) < (List.replicate (UINT64_LIMIT + 1) (0 : Int)).length := by simp
  have hM : UINT64_LIMIT < (List.replicate (UINT64_LIMIT + 1) (0 : Int)).length := by simp
  refine ⟨?_, ?_, by norm_num [UINT64_LIMIT]⟩
  · rw [GenerateUniqueIDs_get "I" _ 0 0 h0]
    simp only [List.getElem_replicate]
    norm_num
    rw [Nat.mod_eq_of_lt (by norm_num [UINT64_LIMIT])]
  · rw [GenerateUniqueIDs_get "I" _ 0 UINT64_LIMIT hM]
    simp only [List.getElem_replicate]
    have h2 : ((0 : Nat) + UINT64_LIMIT + 1) % UINT64_LIMIT = 1 := by
      have he : (0 : Nat) + UINT64_LIMIT + 1 = UINT64_LIMIT + 1 := by omega
      rw [he, Nat.add_mod_left]
      exact Nat.mod_eq_of_lt (by norm_num [UINT64_LIMIT])
    rw [h2]

/-- Claim C6 (corrected): among the first 2^64 calls of one category —
i.e. before the uint64 sequence counter can wrap — any two calls return
distinct identities, even when they observe the same timestamp:
uniqueness comes solely from the incremented sequence component. -/
theorem C6_amended (cat : String) (ts : List Int) (i j : Nat)
    (hij : i < j) (hjM : j < UINT64_LIMIT) (hjlen : j < ts.length) :
    (GenerateUniqueIDs cat 0 ts).get? i ≠ (GenerateUniqueIDs cat 0 ts).get? j := by
  have hilen : i < ts.length := Nat.lt_trans hij hjlen
  rw [GenerateUniqueIDs_get cat ts 0 i hilen, GenerateUniqueIDs_get cat ts 0 j hjlen]
  intro h
  have hcount := sprintfID_count_inj cat ts[i] ts[j] _ _ (Option.some.inj h)
  simp only [UINT64_LIMIT] at hcount hjM
  omega

/-- Witness for C6_amended at a concrete two-call run with equal
timestamps: the two identities "I-5-1" and "I-5-2" differ. -/
theorem C6_amended_witness :
    (0 : Nat) < 1 ∧ 1 < UINT64_LIMIT ∧ 1 < ([5, 5] : List Int).length ∧
    (GenerateUniqueIDs "I" 0 [5, 5]).get? 0 ≠ (GenerateUniqueIDs "I" 0 [5, 5]).get? 1 :=
  ⟨by norm_num, by norm_num [UINT64_LIMIT], by norm_num,
    C6_amended "I" [5, 5] 0 1 (by norm_num) (by norm_num [UINT64_LIMIT]) (by norm_num)⟩

/-! ### Invariants of the run protocol -/

/-- The invariant of the run protocol: the wg counter matches the counts
the live goroutines owe; the error channel only ever carries the wrapped
ctx.Err or a wrapped fatal accept-loop error; the value the select
produced is nil on the ctx.Done arm and a wrapped error on the errChan
arm; the deferred ReleasePort has run exactly once when Run has returned
and never before; and once Run has returned, the accept goroutine and
the watch goroutine are gone and no worker goroutine is still before its
leading wg.Done. -/
structure InvS (s : SysState) : Prop where
  hwg : s.wg = wgSpec s
  herr : ∀ v, s.errChan = some v →
    v = GoErr.wrapAccept GoErr.ctxCanceled ∨ v = GoErr.wrapAccept GoErr.acceptFatal
  hph : ∀ b e, s.mainPh = MainPh.selected b e ∨ s.mainPh = MainPh.returned b e →
    (b = SelBranch.ctxBranch → e = none) ∧
    (b = SelBranch.errBranch →
      e = some (GoErr.wrapAccept GoErr.ctxCanceled) ∨
        e = some (GoErr.wrapAccept GoErr.acceptFatal))
  hrel : s.released = if isReturned s.mainPh then 1 else 0
  hret : ∀ b e, s.mainPh = MainPh.returned b e →
    s.watchPh ≠ WatchPh.running ∧ s.acceptLooping = false ∧ s.spawned = []


theorem Inv_step (s : SysState) (a : Step) (h : InvS s) : InvS (step s a) := by
  obtain ⟨h1, h2, h3, h4, h5⟩ := h
  cases a with
  | cancel => exact ⟨h1, h2, h3, h4, h5⟩
  | acceptConn =>
    by_cases hL : s.acceptLooping = true
    · simp only [step]
      rw [if_pos hL]
      cases hr : registerWorker s.ioReg s.nextConn with
      | none => exact ⟨h1, h2, h3, h4, h5⟩
      | some ioReg' =>
        cases hr2 : registerWorker s.cmdReg s.nextConn with
        | none => exact ⟨h1, h2, h3, h4, h5⟩
        | some cmdReg' =>
          refine ⟨?_, h2, h3, h4, ?_⟩
          · show s.wg + 2 = wgSpec _
            simp only [wgSpec, List.length_cons]
            simp only [wgSpec] at h1
            omega
          · intro b e hm
            have hx := (h5 b e hm).2.1
            rw [hx] at hL
            simp at hL
    · simp only [step]
      rw [if_neg hL]
      exact ⟨h1, h2, h3, h4, h5⟩
  | acceptFatalErr =>
    by_cases hL : s.acceptLooping = true
    · simp only [step]
      rw [if_pos hL]
      refine ⟨?_, ?_, h3, h4, ?_⟩
      · show s.wg - 1 = wgSpec _
        simp only [wgSpec] at h1 ⊢
        rw [hL] at h1
        simp at h1 ⊢
        omega
      · intro v hv
        exact Or.inr (Option.some.inj hv).symm
      · intro b e hm
        have hx := (h5 b e hm).2.1
        rw [hx] at hL
        simp at hL
    · simp only [step]
      rw [if_neg hL]
      exact ⟨h1, h2, h3, h4, h5⟩
  | acceptSeesCancel =>
    by_cases hG : s.acceptLooping = true ∧ s.cancelled = true
    · simp only [step]
      rw [if_pos hG]
      refine ⟨?_, ?_, h3, h4, ?_⟩
      · show s.wg - 1 = wgSpec _
        simp only [wgSpec] at h1 ⊢
        rw [hG.1] at h1
        simp at h1 ⊢
        omega
      · intro v hv
        exact Or.inl (Option.some.inj hv).symm
      · intro b e hm
        have hx := (h5 b e hm).2.1
        have hL := hG.1
        rw [hx] at hL
        simp at hL
    · simp only [step]
      rw [if_neg hG]
      exact ⟨h1, h2, h3, h4, h5⟩
  | workerDone n k =>
    by_cases hG : (n, k) ∈ s.spawned
    · simp only [step]
      rw [if_pos hG]
      refine ⟨?_, h2, h3, h4, ?_⟩
      · show s.wg - 1 = wgSpec _
        have hlen : (s.spawned.erase (n, k)).length = s.spawned.length - 1 :=
          List.length_erase_of_mem hG
        have hpos : 0 < s.spawned.length := List.length_pos.mpr (List.ne_nil_of_mem hG)
        simp only [wgSpec] at h1 ⊢
        rw [hlen]
        omega
      · intro b e hm
        have hx := (h5 b e hm).2.2
        rw [hx] at hG
        simp at hG
    · simp only [step]
      rw [if_neg hG]
      exact ⟨h1, h2, h3, h4, h5⟩
  | workerExit n k =>
    by_cases hG : (n, k) ∈ s.active
    · simp only [step]
      rw [if_pos hG]
      cases k with
      | ioThread => exact ⟨h1, h2, h3, h4, h5⟩
      | cmdHandler => exact ⟨h1, h2, h3, h4, h5⟩
    · simp only [step]
      rw [if_neg hG]
      exact ⟨h1, h2, h3, h4, h5⟩
  | watchExit =>
    by_cases hG : s.watchPh = WatchPh.running ∧ s.cancelled = true
    · simp only [step]
      rw [if_pos hG]
      refine ⟨?_, h2, h3, h4, ?_⟩
      · show s.wg - 1 = wgSpec _
        simp only [wgSpec] at h1 ⊢
        rw [hG.1] at h1
        simp at h1 ⊢
        omega
      · intro b e hm
        exact absurd hG.1 (h5 b e hm).1
    · simp only [step]
      rw [if_neg hG]
      exact ⟨h1, h2, h3, h4, h5⟩
  | mainSelectCtx =>
    by_cases hG : s.mainPh = MainPh.selecting ∧ s.cancelled = true
    · simp only [step]
      rw [if_pos hG]
      refine ⟨h1, h2, ?_, ?_, ?_⟩
      · intro b e hm
        rcases hm with hm | hm
        · injection hm with hb he
          subst hb
          subst he
          exact ⟨fun _ => rfl, fun hc => by cases hc⟩
        · exact MainPh.noConfusion hm
      · rw [hG.1] at h4
        simp only [isReturned] at h4 ⊢
        exact h4
      · intro b e hm
        exact MainPh.noConfusion hm
    · simp only [step]
      rw [if_neg hG]
      exact ⟨h1, h2, h3, h4, h5⟩
  | mainSelectErr =>
    simp only [step]
    cases hmp : s.mainPh with
    | selecting =>
      cases hec : s.errChan with
      | none => exact ⟨h1, h2, h3, h4, h5⟩
      | some v =>
        refine ⟨h1, ?_, ?_, ?_, ?_⟩
        · intro w hw
          exact Option.noConfusion hw
        · intro b e hm
          rcases hm with hm | hm
          · injection hm with hb he
            subst hb
            subst he
            constructor
            · intro hc
              cases hc
            · intro hc
              rcases h2 v hec with hv | hv
              · exact Or.inl (by rw [hv])
              · exact Or.inr (by rw [hv])
          · exact MainPh.noConfusion hm
        · rw [hmp] at h4
          simp only [isReturned] at h4 ⊢
          exact h4
        · intro b e hm
          exact MainPh.noConfusion hm
    | selected b0 e0 =>
      cases hec : s.errChan with
      | none => exact ⟨h1, h2, h3, h4, h5⟩
      | some v => exact ⟨h1, h2, h3, h4, h5⟩
    | returned b0 e0 =>
      cases hec : s.errChan with
      | none => exact ⟨h1, h2, h3, h4, h5⟩
      | some v => exact ⟨h1, h2, h3, h4, h5⟩
  | mainFinish =>
    simp only [step]
    cases hmp : s.mainPh with
    | selecting => exact ⟨h1, h2, h3, h4, h5⟩
    | returned b0 e0 => exact ⟨h1, h2, h3, h4, h5⟩
    | selected b0 e0 =>
      show InvS (if s.wg = 0 then
        { s with mainPh := MainPh.returned b0 e0, released := s.released + 1 } else s)
      by_cases hw : s.wg = 0
      · rw [if_pos hw]
        have hz : (if s.acceptLooping = true then 1 else 0)
            + (if s.watchPh = WatchPh.running then 1 else 0) + s.spawned.length = 0 := by
          have hz0 := hw
          rw [h1] at hz0
          simpa only [wgSpec] using hz0
        refine ⟨h1, h2, ?_, ?_, ?_⟩
        · intro b e hm
          rcases hm with hm | hm
          · exact MainPh.noConfusion hm
          · injection hm with hb he
            subst hb
            subst he
            exact h3 b0 e0 (Or.inl hmp)
        · rw [hmp] at h4
          simp [isReturned] at h4 ⊢
          omega
        · intro b e _
          refine ⟨?_, ?_, ?_⟩
          · intro hwr
            rw [hwr, if_pos rfl] at hz
            exact absurd hz (by omega)
          · cases hb : s.acceptLooping
            · rfl
            · rw [hb, if_pos rfl] at hz
              exact absurd hz (by omega)
          · have : s.spawned.length = 0 := by omega
            exact List.length_eq_zero.mp this
      · rw [if_neg hw]
        exact ⟨h1, h2, h3, h4, h5⟩

theorem Inv_exec (s : SysState) (l : List Step) (h : InvS s) : InvS (exec s l) := by
  induction l generalizing s with
  | nil => exact h
  | cons a rest ih => exact ih (step s a) (Inv_step s a h)

theorem Inv_init (w : Bool) : InvS (initState w) := by
  refine ⟨?_, ?_, ?_, ?_, ?_⟩
  · cases w <;> simp [initState, wgSpec]
  · intro v hv
    exact Option.noConfusion hv
  · intro b e hm
    rcases hm with hm | hm <;> exact MainPh.noConfusion hm
  · simp [initState, isReturned]
  · intro b e hm
    exact MainPh.noConfusion hm

theorem watch_started_step (s : SysState) (a : Step)
    (h : s.watchPh ≠ WatchPh.notStarted) : (step s a).watchPh ≠ WatchPh.notStarted := by
  cases a with
  | cancel => exact h
  | acceptConn =>
    by_cases hL : s.acceptLooping = true
    · simp only [step]
      rw [if_pos hL]
      cases hr : registerWorker s.ioReg s.nextConn with
      | none => exact h
      | some ioReg' =>
        cases hr2 : registerWorker s.cmdReg s.nextConn with
        | none => exact h
        | some cmdReg' => exact h
    · simp only [step]
      rw [if_neg hL]
      exact h
  | acceptFatalErr =>
    by_cases hL : s.acceptLooping = true
    · simp only [step]; rw [if_pos hL]; exact h
    · simp only [step]; rw [if_neg hL]; exact h
  | acceptSeesCancel =>
    by_cases hG : s.acceptLooping = true ∧ s.cancelled = true
    · simp only [step]; rw [if_pos hG]; exact h
    · simp only [step]; rw [if_neg hG]; exact h
  | workerDone n k =>
    by_cases hG : (n, k) ∈ s.spawned
    · simp only [step]; rw [if_pos hG]; exact h
    · simp only [step]; rw [if_neg hG]; exact h
  | workerExit n k =>
    by_cases hG : (n, k) ∈ s.active
    · simp only [step]
      rw [if_pos hG]
      cases k with
      | ioThread => exact h
      | cmdHandler => exact h
    · simp only [step]
      rw [if_neg hG]
      exact h
  | watchExit =>
    by_cases hG : s.watchPh = WatchPh.running ∧ s.cancelled = true
    · simp only [step]
      rw [if_pos hG]
      intro hc
      exact WatchPh.noConfusion hc
    · simp only [step]; rw [if_neg hG]; exact h
  | mainSelectCtx =>
    by_cases hG : s.mainPh = MainPh.selecting ∧ s.cancelled = true
    · simp only [step]; rw [if_pos hG]; exact h
    · simp only [step]; rw [if_neg hG]; exact h
  | mainSelectErr =>
    simp only [step]
    cases hmp : s.mainPh with
    | selecting =>
      cases hec : s.errChan with
      | none => exact h
      | some v => exact h
    | selected b0 e0 =>
      cases hec : s.errChan with
      | none => exact h
      | some v => exact h
    | returned b0 e0 =>
      cases hec : s.errChan with
      | none => exact h
      | some v => exact h
  | mainFinish =>
    simp only [step]
    cases hmp : s.mainPh with
    | selecting => exact h
    | returned b0 e0 => exact h
    | selected b0 e0 =>
      show (if s.wg = 0 then
        { s with mainPh := MainPh.returned b0 e0, released := s.released + 1 }
          else s).watchPh ≠ WatchPh.notStarted
      by_cases hw : s.wg = 0
      · rw [if_pos hw]; exact h
      · rw [if_neg hw]; exact h

theorem watch_started_exec (s : SysState) (l : List Step)
    (h : s.watchPh ≠ WatchPh.notStarted) : (exec s l).watchPh ≠ WatchPh.notStarted := by
  induction l generalizing s with
  | nil => exact h
  | cons a rest ih => exact ih (step s a) (watch_started_step s a h)

/-! ### Claim theorems on the run protocol -/

/-- Claim C1 (code_bug), evaluation at the failing schedule: one
connection is accepted and both its workers registered and started; each
worker goroutine executes the wg.Done call placed at the top of
startIOThread / startCommandHandler (lines 242, 258) and is then
preempted; the context is cancelled, the accept goroutine exits, the
select takes the ctx.Done arm, and wg.Wait at line 116 succeeds — so Run
returns (mainPh = returned, with the deferred ReleasePort run) while
both workers are still active and both registries still hold their
entries, contradicting the claim that both registries are empty when Run
returns: the leading wg.Done means wg.Wait does not wait for the workers
and their deferred unregisters. -/
theorem C1_run_returns_with_workers_registered :
    (exec (initState false) [Step.acceptConn, Step.workerDone 0 WKind.ioThread,
        Step.workerDone 0 WKind.cmdHandler, Step.cancel, Step.acceptSeesCancel,
        Step.mainSelectCtx, Step.mainFinish]).mainPh
      = MainPh.returned SelBranch.ctxBranch none ∧
    (exec (initState false) [Step.acceptConn, Step.workerDone 0 WKind.ioThread,
        Step.workerDone 0 WKind.cmdHandler, Step.cancel, Step.acceptSeesCancel,
        Step.mainSelectCtx, Step.mainFinish]).ioReg = [0] ∧
    (exec (initState false) [Step.acceptConn, Step.workerDone 0 WKind.ioThread,
        Step.workerDone 0 WKind.cmdHandler, Step.cancel, Step.acceptSeesCancel,
        Step.mainSelectCtx, Step.mainFinish]).cmdReg = [0] ∧
    (exec (initState false) [Step.acceptConn, Step.workerDone 0 WKind.ioThread,
        Step.workerDone 0 WKind.cmdHandler, Step.cancel, Step.acceptSeesCancel,
        Step.mainSelectCtx, Step.mainFinish]).active
      = [(0, WKind.cmdHandler), (0, WKind.ioThread)] := by
  decide

/-- Claim C4 (corrected), counterexample: a complete run of a server
whose cmdWatchSubscriptionChan is nil (permitted by NewServer) finishes
— Run returns — without any watch-manager goroutine ever having been
launched, because the launch at lines 92-96 is guarded by the nil check
at line 91. This refutes the claim for every call to Run(ctx). -/
theorem C4_counterexample :
    (exec (initState false) [Step.cancel, Step.acceptSeesCancel, Step.mainSelectCtx,
        Step.mainFinish]).mainPh = MainPh.returned SelBranch.ctxBranch none ∧
    (exec (initState false) [Step.cancel, Step.acceptSeesCancel, Step.mainSelectCtx,
        Step.mainFinish]).watchPh = WatchPh.notStarted := by
  decide

/-- Claim C4 (corrected): for every call to Run(ctx) on a server whose
cmdWatchSubscriptionChan is non-nil, the watch-manager goroutine is
launched (it is running in the initial state of the run protocol) and,
because Run's WaitGroup holds a count for it until it exits, in every
schedule in which Run has returned the watch goroutine has already
exited: it stays alive until server shutdown. -/
theorem C4_amended (sched : List Step) (b : SelBranch) (e : Option GoErr)
    (h : (exec (initState true) sched).mainPh = MainPh.returned b e) :
    (initState true).watchPh = WatchPh.running ∧
      (exec (initState true) sched).watchPh = WatchPh.exited := by
  refine ⟨rfl, ?_⟩
  have hinv := Inv_exec (initState true) sched (Inv_init true)
  have hnr := (hinv.hret b e h).1
  have hns := watch_started_exec (initState true) sched (by simp [initState])
  cases hph : (exec (initState true) sched).watchPh with
  | notStarted => exact absurd hph hns
  | running => exact absurd hph hnr
  | exited => rfl

/-- Witness for C4_amended at a concrete completed schedule of a run
with the watch channel present. -/
theorem C4_amended_witness :
    (exec (initState true) [Step.cancel, Step.watchExit, Step.acceptSeesCancel,
        Step.mainSelectCtx, Step.mainFinish]).mainPh
      = MainPh.returned SelBranch.ctxBranch none ∧
    ((initState true).watchPh = WatchPh.running ∧
      (exec (initState true) [Step.cancel, Step.watchExit, Step.acceptSeesCancel,
        Step.mainSelectCtx, Step.mainFinish]).watchPh = WatchPh.exited) :=
  ⟨by decide, C4_amended [Step.cancel, Step.watchExit, Step.acceptSeesCancel,
    Step.mainSelectCtx, Step.mainFinish] SelBranch.ctxBranch none (by decide)⟩

/-- Claim C5 (corrected), counterexample: a run whose only shutdown
trigger is clean cancellation of the context (the schedule contains no
fatal accept error), in which the accept goroutine observes ctx.Done
first, returns ctx.Err (line 184), and its wrapper sends the wrapped
error on errChan (line 103) before the main goroutine's select runs;
both select arms are then ready and the errChan arm is taken, so Run
returns a non-nil wrapped context.Canceled error instead of nil —
refuting the claim for every interleaving. -/
theorem C5_counterexample :
    (exec (initState false) [Step.cancel, Step.acceptSeesCancel, Step.mainSelectErr,
        Step.mainFinish]).mainPh
      = MainPh.returned SelBranch.errBranch
          (some (GoErr.wrapAccept GoErr.ctxCanceled)) := by
  decide

/-- Claim C5 (corrected): in every schedule, when Run returns via the
ctx.Done arm of the select it returns nil, and when it returns via the
errChan arm it returns the wrapped error the accept goroutine delivered
— either the wrapped fatal accept error or, under clean cancellation,
the wrapped context.Canceled error; under clean cancellation both arms
can be ready, so a non-nil return is possible. -/
theorem C5_amended (w : Bool) (sched : List Step) (b : SelBranch) (e : Option GoErr)
    (h : (exec (initState w) sched).mainPh = MainPh.returned b e) :
    (b = SelBranch.ctxBranch → e = none) ∧
    (b = SelBranch.errBranch →
      e = some (GoErr.wrapAccept GoErr.ctxCanceled) ∨
        e = some (GoErr.wrapAccept GoErr.acceptFatal)) :=
  (Inv_exec (initState w) sched (Inv_init w)).hph b e (Or.inr h)

/-- Witness for C5_amended at a concrete schedule returning through the
ctx.Done arm with a nil error. -/
theorem C5_amended_witness :
    (exec (initState false) [Step.cancel, Step.mainSelectCtx, Step.acceptSeesCancel,
        Step.mainFinish]).mainPh = MainPh.returned SelBranch.ctxBranch none ∧
    ((SelBranch.ctxBranch = SelBranch.ctxBranch → (none : Option GoErr) = none) ∧
      (SelBranch.ctxBranch = SelBranch.errBranch →
        (none : Option GoErr) = some (GoErr.wrapAccept GoErr.ctxCanceled) ∨
          (none : Option GoErr) = some (GoErr.wrapAccept GoErr.acceptFatal))) :=
  ⟨by decide, C5_amended false [Step.cancel, Step.mainSelectCtx, Step.acceptSeesCancel,
    Step.mainFinish] SelBranch.ctxBranch none (by decide)⟩

/-- Claim C9 (confirmed): in every schedule of every run — whether
shutdown is triggered by cancellation or by a fatal accept-loop error —
the deferred ReleasePort registered at line 85 has run exactly once if
Run has returned and has not run at all before that: no path releases
the listening socket twice and no shutdown path skips the release. -/
theorem C9_release_exactly_once (w : Bool) (sched : List Step) :
    (exec (initState w) sched).released
      = if isReturned (exec (initState w) sched).mainPh then 1 else 0 :=
  (Inv_exec (initState w) sched (Inv_init w)).hrel

/-! ### Claim theorems on the accept-loop iteration, BindAndListen and Shutdown -/

/-- Claim C2 (corrected), counterexample: an accepted connection whose
io-thread registration fails (duplicate identity) is abandoned by a bare
continue (line 223) — neither worker is started, but the accepted client
socket is never closed: the iteration obtains the descriptor and no
branch of AcceptConnectionRequests closes it, refuting the claim that
the server abandons the connection by closing the accepted client
socket. -/
theorem C2_counterexample :
    (AcceptConnectionsIteration ⟨false, AcceptRes.ok, true⟩ ["I-0-1"] [] "I-0-1" "C-0-1").out
      = IterOut.contRegIOFailed ∧
    (AcceptConnectionsIteration ⟨false, AcceptRes.ok, true⟩ ["I-0-1"] []
      "I-0-1" "C-0-1").clientSocketObtained = true ∧
    (AcceptConnectionsIteration ⟨false, AcceptRes.ok, true⟩ ["I-0-1"] []
      "I-0-1" "C-0-1").clientSocketClosed = false := by
  decide

/-- Claim C2 (corrected): when an accepted connection reaches the
registration stage and either registration fails, the server starts
neither worker and abandons the connection without closing the accepted
client socket; the two worker goroutines are started exactly when both
registrations succeed, in which case both identities are inserted into
their registries. -/
theorem C2_amended (env : IterEnv) (ioReg cmdReg : List String) (ioID cmdID : String)
    (hctx : env.ctxDone = false) (hacc : env.acceptRes = AcceptRes.ok)
    (hio : env.ioHandlerOk = true) :
    ((ioID ∈ ioReg ∨ cmdID ∈ cmdReg) →
      (AcceptConnectionsIteration env ioReg cmdReg ioID cmdID).out ≠ IterOut.startedWorkers ∧
      (AcceptConnectionsIteration env ioReg cmdReg ioID cmdID).clientSocketObtained = true ∧
      (AcceptConnectionsIteration env ioReg cmdReg ioID cmdID).clientSocketClosed = false) ∧
    (ioID ∉ ioReg → cmdID ∉ cmdReg →
      (AcceptConnectionsIteration env ioReg cmdReg ioID cmdID).out = IterOut.startedWorkers ∧
      (AcceptConnectionsIteration env ioReg cmdReg ioID cmdID).ioReg = ioID :: ioReg ∧
      (AcceptConnectionsIteration env ioReg cmdReg ioID cmdID).cmdReg = cmdID :: cmdReg) := by
  obtain ⟨cd, ar, ho⟩ := env
  simp only at hctx hacc hio
  subst hctx
  subst hacc
  subst hio
  constructor
  · intro hdup
    by_cases hi : ioID ∈ ioReg
    · simp [AcceptConnectionsIteration, registerWorker, hi]
    · have hc : cmdID ∈ cmdReg := hdup.resolve_left hi
      simp [AcceptConnectionsIteration, registerWorker, hi, hc]
  · intro hi hc
    simp [AcceptConnectionsIteration, registerWorker, hi, hc]

/-- Witness for C2_amended at a concrete duplicate registration and a
concrete fresh registration. -/
theorem C2_amended_witness :
    ((("I-0-1" : String) ∈ (["I-0-1"] : List String) ∨
        ("C-0-1" : String) ∈ ([] : List String)) →
      (AcceptConnectionsIteration ⟨false, AcceptRes.ok, true⟩ ["I-0-1"] []
        "I-0-1" "C-0-1").out ≠ IterOut.startedWorkers ∧
      (AcceptConnectionsIteration ⟨false, AcceptRes.ok, true⟩ ["I-0-1"] []
        "I-0-1" "C-0-1").clientSocketObtained = true ∧
      (AcceptConnectionsIteration ⟨false, AcceptRes.ok, true⟩ ["I-0-1"] []
        "I-0-1" "C-0-1").clientSocketClosed = false) ∧
    (("I-0-1" : String) ∉ (["I-0-1"] : List String) →
      ("C-0-1" : String) ∉ ([] : List String) →
      (AcceptConnectionsIteration ⟨false, AcceptRes.ok, true⟩ ["I-0-1"] []
        "I-0-1" "C-0-1").out = IterOut.startedWorkers ∧
      (AcceptConnectionsIteration ⟨false, AcceptRes.ok, true⟩ ["I-0-1"] []
        "I-0-1" "C-0-1").ioReg = "I-0-1" :: ["I-0-1"] ∧
      (AcceptConnectionsIteration ⟨false, AcceptRes.ok, true⟩ ["I-0-1"] []
        "I-0-1" "C-0-1").cmdReg = "C-0-1" :: []) :=
  C2_amended ⟨false, AcceptRes.ok, true⟩ ["I-0-1"] [] "I-0-1" "C-0-1" rfl rfl rfl

/-- Claim C3 (corrected), counterexample: a failure to create the I/O
handler for one accepted client's descriptor — the claim's own example
of a per-connection setup error — makes the iteration return out of the
accept loop (line 199) instead of continuing, so the error escalates and
shuts down the whole server. -/
theorem C3_counterexample :
    (AcceptConnectionsIteration ⟨false, AcceptRes.ok, false⟩ [] [] "I-0-1" "C-0-1").out
      = IterOut.returnIOHandlerErr ∧
    loopContinues
      (AcceptConnectionsIteration ⟨false, AcceptRes.ok, false⟩ [] [] "I-0-1" "C-0-1").out
      = false := by
  decide

/-- Claim C3 (corrected): per-connection registration failures are
contained — the accept loop continues — and the termination of a running
worker never touches the accept loop, the error channel or the main
goroutine; but a failure to create the I/O handler for an accepted
descriptor terminates the accept loop and propagates the error to the
server. -/
theorem C3_amended (env : IterEnv) (ioReg cmdReg : List String) (ioID cmdID : String)
    (hctx : env.ctxDone = false) (hacc : env.acceptRes = AcceptRes.ok) :
    (env.ioHandlerOk = false →
      (AcceptConnectionsIteration env ioReg cmdReg ioID cmdID).out
        = IterOut.returnIOHandlerErr ∧
      loopContinues (AcceptConnectionsIteration env ioReg cmdReg ioID cmdID).out = false) ∧
    (env.ioHandlerOk = true → (ioID ∈ ioReg ∨ cmdID ∈ cmdReg) →
      loopContinues (AcceptConnectionsIteration env ioReg cmdReg ioID cmdID).out = true) ∧
    (∀ (s : SysState) (n : Nat) (k : WKind),
      (step s (Step.workerExit n k)).acceptLooping = s.acceptLooping ∧
      (step s (Step.workerExit n k)).errChan = s.errChan ∧
      (step s (Step.workerExit n k)).mainPh = s.mainPh) := by
  obtain ⟨cd, ar, ho⟩ := env
  simp only at hctx hacc
  subst hctx
  subst hacc
  refine ⟨?_, ?_, ?_⟩
  · intro hh
    simp only at hh
    subst hh
    simp [AcceptConnectionsIteration, loopContinues]
  · intro hh hdup
    simp only at hh
    subst hh
    by_cases hi : ioID ∈ ioReg
    · simp [AcceptConnectionsIteration, registerWorker, hi, loopContinues]
    · have hc : cmdID ∈ cmdReg := hdup.resolve_left hi
      simp [AcceptConnectionsIteration, registerWorker, hi, hc, loopContinues]
  · intro s n k
    by_cases hG : (n, k) ∈ s.active
    · simp only [step]
      rw [if_pos hG]
      cases k with
      | ioThread => exact ⟨rfl, rfl, rfl⟩
      | cmdHandler => exact ⟨rfl, rfl, rfl⟩
    · simp only [step]
      rw [if_neg hG]
      exact ⟨rfl, rfl, rfl⟩

/-- Witness for C3_amended at a concrete environment with a failing I/O
handler. -/
theorem C3_amended_witness :
    (((⟨false, AcceptRes.ok, false⟩ : IterEnv).ioHandlerOk = false →
      (AcceptConnectionsIteration ⟨false, AcceptRes.ok, false⟩ [] [] "I-0-1" "C-0-1").out
        = IterOut.returnIOHandlerErr ∧
      loopContinues
        (AcceptConnectionsIteration ⟨false, AcceptRes.ok, false⟩ [] [] "I-0-1" "C-0-1").out
        = false) ∧
    ((⟨false, AcceptRes.ok, false⟩ : IterEnv).ioHandlerOk = true →
      (("I-0-1" : String) ∈ ([] : List String) ∨ ("C-0-1" : String) ∈ ([] : List String)) →
      loopContinues
        (AcceptConnectionsIteration ⟨false, AcceptRes.ok, false⟩ [] [] "I-0-1" "C-0-1").out
        = true) ∧
    (∀ (s : SysState) (n : Nat) (k : WKind),
      (step s (Step.workerExit n k)).acceptLooping = s.acceptLooping ∧
      (step s (Step.workerExit n k)).errChan = s.errChan ∧
      (step s (Step.workerExit n k)).mainPh = s.mainPh)) :=
  C3_amended ⟨false, AcceptRes.ok, false⟩ [] [] "I-0-1" "C-0-1" rfl rfl

/-- Claim C8 (confirmed): when the loop body reaches the accept call
(ctx not done), an EAGAIN or EWOULDBLOCK result leads to continue with
no observable effect — it is never surfaced as an error — while any
other accept error makes the iteration return, terminating the loop and
propagating the error to the caller. -/
theorem C8_wouldblock_retries_fatal_returns (env : IterEnv) (ioReg cmdReg : List String)
    (ioID cmdID : String) (hctx : env.ctxDone = false) :
    ((env.acceptRes = AcceptRes.eagain ∨ env.acceptRes = AcceptRes.ewouldblock) →
      AcceptConnectionsIteration env ioReg cmdReg ioID cmdID
        = ⟨IterOut.contWouldBlock, ioReg, cmdReg, false, false⟩ ∧
      loopContinues IterOut.contWouldBlock = true) ∧
    (env.acceptRes = AcceptRes.otherErr →
      AcceptConnectionsIteration env ioReg cmdReg ioID cmdID
        = ⟨IterOut.returnAcceptErr, ioReg, cmdReg, false, false⟩ ∧
      loopContinues IterOut.returnAcceptErr = false) := by
  obtain ⟨cd, ar, ho⟩ := env
  simp only at hctx
  subst hctx
  constructor
  · intro hh
    rcases hh with hh | hh <;> simp only at hh <;> subst hh <;>
      exact ⟨by simp [AcceptConnectionsIteration], rfl⟩
  · intro hh
    simp only at hh
    subst hh
    exact ⟨by simp [AcceptConnectionsIteration], rfl⟩

/-- Witness for C8 at a concrete EAGAIN environment. -/
theorem C8_witness :
    (((⟨false, AcceptRes.eagain, true⟩ : IterEnv).acceptRes = AcceptRes.eagain ∨
        (⟨false, AcceptRes.eagain, true⟩ : IterEnv).acceptRes = AcceptRes.ewouldblock) →
      AcceptConnectionsIteration ⟨false, AcceptRes.eagain, true⟩ ["x"] ["y"] "a" "b"
        = ⟨IterOut.contWouldBlock, ["x"], ["y"], false, false⟩ ∧
      loopContinues IterOut.contWouldBlock = true) ∧
    ((⟨false, AcceptRes.eagain, true⟩ : IterEnv).acceptRes = AcceptRes.otherErr →
      AcceptConnectionsIteration ⟨false, AcceptRes.eagain, true⟩ ["x"] ["y"] "a" "b"
        = ⟨IterOut.returnAcceptErr, ["x"], ["y"], false, false⟩ ∧
      loopContinues IterOut.returnAcceptErr = false) :=
  C8_wouldblock_retries_fatal_returns ⟨false, AcceptRes.eagain, true⟩ ["x"] ["y"] "a" "b" rfl

/-- Claim C7 (code_bug), evaluation at the failing input: with every
syscall succeeding but the configured host failing to parse as an IP,
BindAndListen returns ErrInvalidIPAddress with the created socket
descriptor left open — the deferred close at lines 130-139 tests the
local err variable, which the invalid-address return at line 151 never
assigns — contradicting the claim (and the source's own comment "Close
the socket on exit if an error occurs") that every failure path closes
the descriptor. By contrast the bind-failure path does close it, and
serverFD is assigned only on full success. -/
theorem C7_invalid_ip_leaks_fd :
    BindAndListen ⟨true, true, true, false, true, true⟩
      = ⟨some BindErr.invalidIPAddress, true, false, false⟩ ∧
    BindAndListen ⟨true, true, true, true, false, true⟩
      = ⟨some BindErr.bindFailed, true, true, false⟩ ∧
    BindAndListen ⟨true, true, true, true, true, true⟩
      = ⟨none, true, false, true⟩ := by
  decide

/-- Claim C10 (confirmed): Server.Shutdown has an empty body, so it is a
no-op: it leaves every field of the server — including both registries —
unchanged; the observable shutdown effects in the run protocol come only
from cancellation and from Run's deferred ReleasePort. -/
theorem C10_shutdown_noop (s : ServerState) : Shutdown s = s :=
  rfl
